import Mathlib

/-!
Verification of the logscli query/stream engine (src/main.go) against its
natural-language specification.

Modelling conventions:
* Go strings that are spliced into generated queries are modelled as lists of
  bytes (`List Nat`, each element < 256 for real inputs).  All string literals
  appearing in the Go source are ASCII, so `strBytes` (code points of the
  characters) yields exactly their UTF-8 bytes.
* Lines of the tab-separated response body are modelled as `List Char`;
  every byte the formatting code inspects (tab, newline, ASCII whitespace,
  digits) is ASCII, for which char-level and byte-level processing agree.
* Stateful loops become recursions over the list of remaining input lines.
-/

namespace Logscli

/-- Bytes of an ASCII Lean string literal: for ASCII text the UTF-8 bytes are
exactly the code points.  Used only on the ASCII literals of the Go source. -/
def strBytes (s : String) : List Nat :=
  s.data.map (fun c => c.toNat)

/-! ## Literal Escaper (src/main.go, `Escape`)

The Go loop ranges over the string maintaining a `last` index and a buffer:
for every position holding one of the seven special characters it flushes the
untouched span `txt[last:ii]` followed by the escape sequence, and finally the
trailing span.  Semantically each byte is therefore emitted either as its
escape sequence or unchanged, in order, which is how `Escape` is written here.
All seven escaped code points are ASCII, and on invalid UTF-8 the Go
rune-ranging loop produces U+FFFD (matching no `case`) while the spans copy
the raw bytes, so the byte-level model below is faithful for arbitrary byte
sequences, including invalid encodings. -/

/-- The `switch` of `Escape`: `some` of the escape sequence for the seven
special bytes, `none` (Go `continue`) otherwise.  Cases in source order:
NUL, \n, \r, backslash, single quote, double quote, SUB (026 octal = 26). -/
def escSwitch (b : Nat) : Option (List Nat) :=
  if b = 0 then some (strBytes "\\0")
  else if b = 10 then some (strBytes "\\n")
  else if b = 13 then some (strBytes "\\r")
  else if b = 92 then some (strBytes "\\\\")
  else if b = 39 then some (strBytes "\\'")
  else if b = 34 then some (strBytes "\\\"")
  else if b = 26 then some (strBytes "\\Z")
  else none

/-- `Escape` escapes a byte string for MySQL/ClickHouse (src/main.go:60-91). -/
def Escape (txt : List Nat) : List Nat :=
  match txt with
  | [] => []
  | b :: rest =>
    match escSwitch b with
    | some esc => esc ++ Escape rest
    | none => b :: Escape rest

/-- Per-byte transform stated by the specification: the seven special bytes
become their backslash escapes, every other byte passes through unchanged. -/
def escByteSpec (b : Nat) : List Nat :=
  if b = 0 then strBytes "\\0"
  else if b = 10 then strBytes "\\n"
  else if b = 13 then strBytes "\\r"
  else if b = 92 then strBytes "\\\\"
  else if b = 39 then strBytes "\\'"
  else if b = 34 then strBytes "\\\""
  else if b = 26 then strBytes "\\Z"
  else [b]

/-! ## Predicate Builder (src/main.go, `makeFilterConds` and `runMain`) -/

/-- `makeFilterConds` (src/main.go:93-113): one textual predicate per
non-empty filter input, in source order; no other predicate is added. -/
def makeFilterConds (fixedString regexString before after textField : List Nat) :
    List (List Nat) :=
  (if fixedString ≠ [] then
    [strBytes "position(" ++ textField ++ strBytes ", '" ++ Escape fixedString ++
      strBytes "') <> 0"]
   else []) ++
  (if regexString ≠ [] then
    [strBytes "match(" ++ textField ++ strBytes ", '" ++ Escape regexString ++
      strBytes "') = 1"]
   else []) ++
  (if before ≠ [] then
    [strBytes "time < toDateTime('" ++ Escape before ++ strBytes "')"]
   else []) ++
  (if after ≠ [] then
    [strBytes "time > toDateTime('" ++ Escape after ++ strBytes "')"]
   else [])

/-- The main-scan query text assembled by `runMain` (src/main.go:175-184):
the filter conditions are joined with " AND " (Go `strings.Join`, i.e.
`List.intercalate`) directly after `WHERE `. -/
def mainQuery (fields table fixedString regexString before after textField : List Nat)
    (reverse : Bool) : List Nat :=
  let desc := if reverse then strBytes " DESC" else strBytes ""
  strBytes "SELECT time,millis," ++ fields ++
    strBytes "\n\t\tFROM " ++ table ++
    strBytes "\n\t\tWHERE " ++
    List.intercalate (strBytes " AND ")
      (makeFilterConds fixedString regexString before after textField) ++
    strBytes "\n\t\tORDER BY time" ++ desc ++ strBytes ", millis" ++ desc ++
    strBytes "\n\t\tFORMAT TabSeparatedRaw"

/-- C5: `Escape` equals the byte-wise transform described by the
specification: exactly the seven special bytes are replaced by their
backslash-escape sequences and every other byte passes through unchanged, in
order; being a Lean function of the byte list, it is total over all byte
sequences including invalid encodings. -/
theorem c5_escape_spec (txt : List Nat) : Escape txt = txt.flatMap escByteSpec := by
  induction txt with
  | nil => rfl
  | cons b rest ih =>
    show (match escSwitch b with
      | some esc => esc ++ Escape rest
      | none => b :: Escape rest) = escByteSpec b ++ rest.flatMap escByteSpec
    rw [escSwitch, escByteSpec]
    split_ifs <;> simp [ih]

/-- C1: evaluating the Predicate Builder at the failing input (all four
filter inputs empty, default text field, default table and fields, reverse
ordering): no trivially-true base predicate is added, the predicate list is
empty, and the generated main-scan query's WHERE clause is the empty string
(the `WHERE ` keyword is immediately followed by the line break before
`ORDER BY`), contradicting the specified invariant that the conjunction is
never empty. -/
theorem c1_empty_filters_empty_where :
    makeFilterConds [] [] [] [] (strBytes "review_body") = [] ∧
    List.intercalate (strBytes " AND ")
      (makeFilterConds [] [] [] [] (strBytes "review_body")) = [] ∧
    mainQuery (strBytes "review_body") (strBytes "amazon") [] [] [] []
        (strBytes "review_body") true =
      strBytes ("SELECT time,millis,review_body\n\t\tFROM amazon\n\t\tWHERE " ++
        "\n\t\tORDER BY time DESC, millis DESC\n\t\tFORMAT TabSeparatedRaw") := by
  refine ⟨rfl, rfl, ?_⟩
  rfl

/-! ## Context Expander (src/main.go, `printContextResults`) -/

/-- The comparison operator and ORDER BY suffix chosen by
`printContextResults` (src/main.go:118-124): initialised to ("<", " DESC")
and overwritten to (">", "") when `*reverse && isBefore || !isBefore &&
!*reverse` holds, which is the if-then-else below with swapped branches. -/
def contextParams (reverse isBefore : Bool) : List Nat × List Nat :=
  if reverse && isBefore || !isBefore && !reverse then (strBytes ">", strBytes "")
  else (strBytes "<", strBytes " DESC")

/-- The bounded context query assembled by `fmt.Sprintf` in
`printContextResults` (src/main.go:126-135). -/
def contextQuery (fields table date : List Nat) (millis : Int)
    (reverse isBefore : Bool) (numLines : Nat) : List Nat :=
  let p := contextParams reverse isBefore
  strBytes "SELECT time,millis," ++ fields ++ strBytes " FROM " ++ table ++
    strBytes "\n\t\tWHERE (time = '" ++ date ++ strBytes "' AND millis " ++
    p.1 ++ strBytes " " ++ strBytes (toString millis) ++
    strBytes ") OR (time " ++ p.1 ++ strBytes " '" ++ date ++ strBytes "')" ++
    strBytes "\n\t\tORDER BY time" ++ p.2 ++ strBytes ", millis" ++ p.2 ++
    strBytes "\n\t\tLIMIT " ++ strBytes (toString numLines) ++
    strBytes "\n\t\tSETTINGS max_threads=1\n\t\tFORMAT TabSeparatedRaw"

/-- The reversal test of `printContextResults` (src/main.go:159):
`desc == "" && *reverse || desc != "" && !*reverse`. -/
def contextNeedsReverse (reverse isBefore : Bool) : Bool :=
  let desc := (contextParams reverse isBefore).2
  desc.isEmpty && reverse || !desc.isEmpty && !reverse

/-- The in-place slice reversal of `printContextResults`
(src/main.go:157-163) applied to the fetched result lines. -/
def arrangeContext (reverse isBefore : Bool) (res : List α) : List α :=
  if contextNeedsReverse reverse isBefore then res.reverse else res

/-- Chronological order on composite row keys (timestamp, millis):
lexicographic, matching `ORDER BY time, millis`. -/
def keyLe (a b : Nat × Nat) : Prop :=
  a.1 < b.1 ∨ (a.1 = b.1 ∧ a.2 ≤ b.2)

instance : DecidableRel keyLe := fun a b =>
  inferInstanceAs (Decidable (a.1 < b.1 ∨ (a.1 = b.1 ∧ a.2 ≤ b.2)))

instance : DecidableRel (flip keyLe) := fun a b =>
  (inferInstance : Decidable (keyLe b a))

/-- Computable decidability for `List.Chain` (the library instance is
tactic-defined and does not reduce in the kernel). -/
def chainDec {α : Type} {R : α → α → Prop} (dR : DecidableRel R) :
    (a : α) → (l : List α) → Decidable (List.Chain R a l)
  | _, [] => isTrue List.Chain.nil
  | a, b :: l =>
    match dR a b, chainDec dR b l with
    | isTrue h1, isTrue h2 => isTrue (List.chain_cons.mpr ⟨h1, h2⟩)
    | isFalse h1, _ => isFalse (fun hc => h1 (List.chain_cons.mp hc).1)
    | _, isFalse h2 => isFalse (fun hc => h2 (List.chain_cons.mp hc).2)

instance instChainDecidable {α : Type} {R : α → α → Prop} [dR : DecidableRel R]
    (a : α) (l : List α) : Decidable (List.Chain R a l) :=
  chainDec dR a l

instance instChainDecidable' {α : Type} {R : α → α → Prop} [dR : DecidableRel R] :
    (l : List α) → Decidable (List.Chain' R l)
  | [] => isTrue trivial
  | a :: l => chainDec dR a l

/-- A row sequence reads forward in time (ascending composite keys). -/
abbrev chronoForward (l : List (Nat × Nat)) : Prop := l.Chain' keyLe

/-- A row sequence reads backward in time (descending composite keys). -/
abbrev chronoBackward (l : List (Nat × Nat)) : Prop := l.Chain' (flip keyLe)

/-- The display order of the main scan: descending when `reverse`,
ascending otherwise. -/
abbrev chronoDir (reverse : Bool) (l : List (Nat × Nat)) : Prop :=
  if reverse then chronoBackward l else chronoForward l

/-- The fetched context slice arrives in the server's ORDER BY direction:
ascending keys when the desc suffix is empty, descending otherwise. -/
abbrev serverOrdered (reverse isBefore : Bool) (l : List (Nat × Nat)) : Prop :=
  if (contextParams reverse isBefore).2.isEmpty then l.Chain' keyLe
  else l.Chain' (flip keyLe)

/-- C2 counterexample: with the global ordering reverse and the "before"
window, the server fetches ascending (comparison ">", no DESC suffix), yet
the Expander reverses the slice, so the emitted window [(2,0),(1,0)] is NOT
in forward chronological order — refuting the claim that both context
windows always read forward in time regardless of the scan direction. -/
theorem c2_counterexample :
    serverOrdered true true [(1, 0), (2, 0)] ∧
    arrangeContext true true [(1, 0), (2, 0)] = [(2, 0), (1, 0)] ∧
    ¬ chronoForward (arrangeContext true true [(1, 0), (2, 0)]) := by
  refine ⟨by decide, by decide, by decide⟩

/-- C2 as amended: each context window is emitted in the global scan
direction — forward chronological when the scan is forward, reverse
chronological when the scan is reverse — and the Expander reverses the
fetched slice exactly when the server-side fetch order does not match that
global display direction. -/
theorem c2_amended_window_follows_scan_direction (reverse isBefore : Bool)
    (l : List (Nat × Nat)) (h : serverOrdered reverse isBefore l) :
    chronoDir reverse (arrangeContext reverse isBefore l) := by
  cases reverse <;> cases isBefore
  · simpa [serverOrdered, arrangeContext, contextNeedsReverse, contextParams,
      strBytes] using h
  · have h' : l.Chain' (flip keyLe) := by
      simpa [serverOrdered, contextParams, strBytes] using h
    have hr : (l.reverse).Chain' keyLe := List.chain'_reverse.mpr h'
    simpa [arrangeContext, contextNeedsReverse, contextParams, strBytes] using hr
  · simpa [serverOrdered, arrangeContext, contextNeedsReverse, contextParams,
      strBytes] using h
  · have h' : l.Chain' keyLe := by
      simpa [serverOrdered, contextParams, strBytes] using h
    have hr : (l.reverse).Chain' (flip keyLe) := List.chain'_reverse.mpr h'
    simpa [arrangeContext, contextNeedsReverse, contextParams, strBytes] using hr

/-- Witness for the amended C2 at a concrete input: a slice fetched in
server order for (reverse, before) is emitted in the scan's (descending)
direction. -/
theorem c2_amended_window_follows_scan_direction_witness :
    serverOrdered true true [(1, 0), (2, 0)] ∧
    chronoDir true (arrangeContext true true [(1, 0), (2, 0)]) :=
  ⟨by decide,
    c2_amended_window_follows_scan_direction true true [(1, 0), (2, 0)] (by decide)⟩

/-- C3 counterexample: for the "before" side under reverse global ordering
the code picks comparison ">" with empty (ascending) order suffix, not the
claimed "<" with " DESC". -/
theorem c3_counterexample :
    ¬ ((contextParams true true).1 = strBytes "<" ∧
       (contextParams true true).2 = strBytes " DESC") := by
  decide

/-- C3 as amended: the "before"-side context query uses comparison ">" with
ascending order when the global ordering is reverse and "<" with " DESC" when
it is forward; the "after" side uses the opposite comparison and order in
each case.  (`contextQuery` splices exactly these into the generated SQL.) -/
theorem c3_amended_comparison_table :
    contextParams true true = (strBytes ">", strBytes "") ∧
    contextParams false true = (strBytes "<", strBytes " DESC") ∧
    contextParams true false = (strBytes "<", strBytes " DESC") ∧
    contextParams false false = (strBytes ">", strBytes "") ∧
    contextQuery (strBytes "review_body") (strBytes "amazon")
        (strBytes "2024-01-01 10:00:00") 500 true true 3 =
      strBytes ("SELECT time,millis,review_body FROM amazon" ++
        "\n\t\tWHERE (time = '2024-01-01 10:00:00' AND millis > 500)" ++
        " OR (time > '2024-01-01 10:00:00')" ++
        "\n\t\tORDER BY time, millis" ++
        "\n\t\tLIMIT 3" ++
        "\n\t\tSETTINGS max_threads=1\n\t\tFORMAT TabSeparatedRaw") := by
  refine ⟨by decide, by decide, by decide, by decide, ?_⟩
  rfl

/-! ## Tail Controller -/

/-- Last element of a list, or a default when empty. -/
def lastOr (d : Nat) : List Nat → Nat
  | [] => d
  | [t] => t
  | _ :: rest => lastOr d rest

/-- Modelled from the spec: the tail mode (`-tailf`) is documented in the
README and specified in §4.6 but its implementation is absent from the
provided sources.  Timestamps are modelled at second precision (the spec's
"date-only precision" timestamp of an emitted row, i.e. the row's time field
without the separately stored millis).  One cycle runs a scan whose lower
bound predicate is the Predicate Builder's strict `time > cursor` (the
`after` condition of `makeFilterConds`), so the server only returns rows
with time strictly above the cursor; afterwards the cursor advances to the
timestamp of the last emitted row, or stays put if nothing was emitted.
The cursor is read and written only here, once per cycle. -/
def tailCycle (cursor : Nat) (rows : List Nat) : Nat :=
  lastOr cursor (rows.filter (fun t => decide (cursor < t)))

/-- Modelled from the spec: repeated tail cycles, threading the cursor. -/
def tailRun (cursor : Nat) (cycles : List (List Nat)) : Nat :=
  cycles.foldl tailCycle cursor

theorem le_lastOr (c : Nat) :
    ∀ l : List Nat, (∀ t ∈ l, c ≤ t) → c ≤ lastOr c l
  | [], _ => Nat.le_refl c
  | [t], h => h t (by simp)
  | _ :: y :: rest, h =>
    le_lastOr c (y :: rest) (fun t ht => h t (List.mem_cons_of_mem _ ht))

theorem le_tailCycle (cursor : Nat) (rows : List Nat) :
    cursor ≤ tailCycle cursor rows := by
  unfold tailCycle
  apply le_lastOr
  intro t ht
  exact Nat.le_of_lt (of_decide_eq_true (List.mem_filter.mp ht).2)

theorem le_tailRun : ∀ (cycles : List (List Nat)) (cursor : Nat),
    cursor ≤ tailRun cursor cycles
  | [], c => Nat.le_refl c
  | rows :: rest, c =>
    Nat.le_trans (le_tailCycle c rows) (le_tailRun rest (tailCycle c rows))

/-- C4: the tail cursor is monotonically non-decreasing — after one cycle it
is at least its previous value (it stays put when nothing is emitted and
moves to the last emitted row's timestamp otherwise, which the cycle's
strict lower-bound filter keeps above the cursor), and across any sequence
of cycles it never moves backward.  Mid-cycle mutation is absent by
construction: `tailRun` threads one cursor update per cycle. -/
theorem c4_tail_cursor_monotone (cursor : Nat) (rows : List Nat)
    (cycles : List (List Nat)) :
    cursor ≤ tailCycle cursor rows ∧ cursor ≤ tailRun cursor cycles :=
  ⟨le_tailCycle cursor rows, le_tailRun cycles cursor⟩

/-! ## Row Formatter and body-line loop (src/main.go, `printResults`)

Lines are `List Char`; every character the code inspects is ASCII.  A line,
as produced by `ReadString`, includes its trailing newline. -/

/-- Go `unicode.IsSpace`: ASCII whitespace, NEL, NBSP and the Unicode
space-separator code points. -/
def goIsSpace (c : Char) : Bool :=
  c = ' ' || c = '\t' || c = '\n' || c = '\x0b' || c = '\x0c' || c = '\r' ||
  c = '\x85' || c = '\xa0' || c = '\u1680' ||
  ('\u2000' ≤ c && c ≤ '\u200a') ||
  c = '\u2028' || c = '\u2029' || c = '\u202f' || c = '\u205f' || c = '\u3000'

/-- Go `strings.TrimSpace`: drop leading and trailing whitespace. -/
def goTrimSpace (l : List Char) : List Char :=
  ((l.dropWhile goIsSpace).reverse.dropWhile goIsSpace).reverse

/-- Trailing-whitespace-only trim, as the specification's words for the Row
Formatter describe ("trimming the payload's trailing whitespace"). -/
def trimTrailing (l : List Char) : List Char :=
  (l.reverse.dropWhile goIsSpace).reverse

/-- Split at the first tab, if any. -/
def splitOnceTab : List Char → Option (List Char × List Char)
  | [] => none
  | c :: rest =>
    if c = '\t' then some ([], rest)
    else
      match splitOnceTab rest with
      | none => none
      | some (a, b) => some (c :: a, b)

/-- Go `strings.SplitN(ln, "\t", 3)`: at most three fields, the third keeps
any remaining tabs. -/
def splitN3 (ln : List Char) : List (List Char) :=
  match splitOnceTab ln with
  | none => [ln]
  | some (f1, r1) =>
    match splitOnceTab r1 with
    | none => [f1, r1]
    | some (f2, r2) => [f1, f2, r2]

/-- Go `strings.ReplaceAll(rest, "\t", " ")`. -/
def replaceTabs (l : List Char) : List Char :=
  l.map (fun c => if c = '\t' then ' ' else c)

/-- Accumulating decimal-digit run parser: `none` on the first non-digit. -/
def digitsValAux (acc : Nat) : List Char → Option Nat
  | [] => some acc
  | c :: rest =>
    if c.isDigit then digitsValAux (acc * 10 + (c.toNat - 48)) rest else none

/-- Go `strconv.Atoi`: optional single sign, then one or more digits;
anything else fails.  (Range clamping of out-of-64-bit values is not
modelled; the claims only distinguish syntactic success from failure.) -/
def goAtoi (s : List Char) : Option Int :=
  match s with
  | [] => none
  | '+' :: rest =>
    if rest = [] then none else (digitsValAux 0 rest).map Int.ofNat
  | '-' :: rest =>
    if rest = [] then none else (digitsValAux 0 rest).map (fun n => -(n : Int))
  | _ => (digitsValAux 0 s).map Int.ofNat

/-- Left-pad with '0' to the given width. -/
def padZeros (w : Nat) (s : List Char) : List Char :=
  List.replicate (w - s.length) '0' ++ s

/-- Go `fmt` verb `%03d`: minimum width 3, zero padded; for negatives the
zeros go between the sign and the digits. -/
def format03 (m : Int) : List Char :=
  if m < 0 then '-' :: padZeros 2 (toString m.natAbs).data
  else padZeros 3 (toString m.natAbs).data

/-- The well-formed-row output of `printResults` (src/main.go:267):
`fmt.Printf("%s.%03d\t%s\n", date, millis,
strings.TrimSpace(strings.ReplaceAll(rest, "\t", " ")))`. -/
def formatRow (date : List Char) (millis : Int) (rest : List Char) : List Char :=
  date ++ '.' :: format03 millis ++ '\t' :: goTrimSpace (replaceTabs rest) ++ ['\n']

/-- One iteration of the `printResults` loop (src/main.go:250-267), context
expansion disabled: a line splitting into fewer than 3 tab-separated fields
is written verbatim; otherwise the parsed row is formatted, the millis field
defaulting to 0 when `strconv.Atoi` fails. -/
def printLine (ln : List Char) : List Char :=
  match splitN3 ln with
  | [date, millisStr, rest] => formatRow date ((goAtoi millisStr).getD 0) rest
  | _ => ln

/-- The `printResults` loop over a list of complete lines: concatenated
per-line output.  (The Go loop additionally stops at EOF and propagates
write errors; neither affects the per-line output claims.) -/
def printResultsOut (lines : List (List Char)) : List Char :=
  match lines with
  | [] => []
  | ln :: rest => printLine ln ++ printResultsOut rest

theorem printResultsOut_append (xs ys : List (List Char)) :
    printResultsOut (xs ++ ys) = printResultsOut xs ++ printResultsOut ys := by
  induction xs with
  | nil => rfl
  | cons ln rest ih => simp [printResultsOut, ih]

theorem splitOnceTab_notab (D : List Char) (hD : '\t' ∉ D) (r : List Char) :
    splitOnceTab (D ++ '\t' :: r) = some (D, r) := by
  induction D with
  | nil => simp [splitOnceTab]
  | cons c cs ih =>
    have hc : ¬(c = '\t') := fun h => hD (h ▸ List.mem_cons_self c cs)
    have ih' := ih (fun h => hD (List.mem_cons_of_mem _ h))
    simp [splitOnceTab, hc, ih']

theorem splitN3_wellformed (D ms P : List Char) (hD : '\t' ∉ D)
    (hm : '\t' ∉ ms) :
    splitN3 (D ++ '\t' :: (ms ++ '\t' :: P)) = [D, ms, P] := by
  simp [splitN3, splitOnceTab_notab D hD, splitOnceTab_notab ms hm]

/-- C7: a body line with fewer than 3 tab-separated fields is written to the
output byte-for-byte unchanged (terminator included), is not parsed as a
row, raises no error, and the loop continues with the following lines. -/
theorem c7_malformed_line_verbatim (pre : List (List Char)) (ml : List Char)
    (suf : List (List Char)) (h : (splitN3 ml).length < 3) :
    printLine ml = ml ∧
    printResultsOut (pre ++ ml :: suf) =
      printResultsOut pre ++ ml ++ printResultsOut suf := by
  have hml : printLine ml = ml := by
    rcases hs : splitN3 ml with _ | ⟨d, _ | ⟨m, _ | ⟨r, tl⟩⟩⟩
    · simp [printLine, hs]
    · simp [printLine, hs]
    · simp [printLine, hs]
    · rw [hs] at h
      simp at h
      omega
  refine ⟨hml, ?_⟩
  rw [printResultsOut_append]
  simp [printResultsOut, hml, List.append_assoc]

/-- Witness for C7: a line with no tab passes through a surrounding stream
verbatim. -/
theorem c7_malformed_line_verbatim_witness :
    (splitN3 ("oops, not a data line\n".data)).length < 3 ∧
    printResultsOut (["a\tb\tc\n".data] ++ "oops, not a data line\n".data ::
        ["D\t5\tz\n".data]) =
      printResultsOut ["a\tb\tc\n".data] ++ "oops, not a data line\n".data ++
        printResultsOut ["D\t5\tz\n".data] :=
  ⟨by decide,
    (c7_malformed_line_verbatim ["a\tb\tc\n".data] ("oops, not a data line\n".data)
      ["D\t5\tz\n".data] (by decide)).2⟩

/-- C6 counterexample: for the line `D<TAB>5<TAB> x\n` (payload with a
leading space) the code trims the payload on BOTH sides (Go
`strings.TrimSpace`), printing `D.005<TAB>x`, while the claim's rendering —
only trailing whitespace trimmed — keeps the leading space. -/
theorem c6_counterexample :
    printLine ("D\t5\t x\n".data) = "D.005\tx\n".data ∧
    "D".data ++ '.' :: format03 5 ++ '\t' ::
        trimTrailing (replaceTabs " x\n".data) ++ ['\n'] = "D.005\t x\n".data ∧
    printLine ("D\t5\t x\n".data) ≠
      "D".data ++ '.' :: format03 5 ++ '\t' ::
        trimTrailing (replaceTabs " x\n".data) ++ ['\n'] := by
  refine ⟨by decide, by decide, by decide⟩

/-- C6 as amended: for a well-formed body row the formatter prints the
timestamp, a dot, the millis zero-padded to 3 digits, one tab, and the
payload with every tab replaced by a space and then trimmed of BOTH leading
and trailing whitespace (Go `strings.TrimSpace`), ending with a newline. -/
theorem c6_amended_row_format (D ms P : List Char) (m : Int)
    (hD : '\t' ∉ D) (hm : '\t' ∉ ms) (hmv : goAtoi ms = some m) :
    printLine (D ++ '\t' :: (ms ++ '\t' :: P)) =
      D ++ '.' :: format03 m ++ '\t' :: goTrimSpace (replaceTabs P) ++ ['\n'] := by
  simp [printLine, splitN3_wellformed D ms P hD hm, hmv, formatRow]

/-- Witness for the amended C6 at a concrete row. -/
theorem c6_amended_row_format_witness :
    printLine ("D".data ++ '\t' :: ("5".data ++ '\t' :: " x\n".data)) =
      "D".data ++ '.' :: format03 5 ++ '\t' ::
        goTrimSpace (replaceTabs " x\n".data) ++ ['\n'] :=
  c6_amended_row_format "D".data "5".data " x\n".data 5 (by decide) (by decide)
    (by decide)

/-- C9: a well-formed row whose millis field does not parse as an integer is
not rejected: the millis value silently defaults to zero and the row is
formatted and printed normally (with "000" as the padded millis). -/
theorem c9_bad_millis_defaults_zero (D ms P : List Char)
    (hD : '\t' ∉ D) (hm : '\t' ∉ ms) (hmv : goAtoi ms = none) :
    printLine (D ++ '\t' :: (ms ++ '\t' :: P)) = formatRow D 0 P ∧
    formatRow D 0 P =
      D ++ '.' :: "000".data ++ '\t' :: goTrimSpace (replaceTabs P) ++ ['\n'] := by
  constructor
  · simp [printLine, splitN3_wellformed D ms P hD hm, hmv]
  · rfl

/-- Witness for C9 at a concrete row with a non-numeric millis field. -/
theorem c9_bad_millis_defaults_zero_witness :
    printLine ("2024-01-01 10:00:00".data ++ '\t' :: ("x5".data ++ '\t' :: "hello\n".data)) =
      formatRow "2024-01-01 10:00:00".data 0 "hello\n".data :=
  (c9_bad_millis_defaults_zero "2024-01-01 10:00:00".data "x5".data "hello\n".data
    (by decide) (by decide) (by decide)).1

/-! ## Stream Reader header phase (src/main.go, `runMain` lines 212-234) -/

/-- ClickHouse query progress counters (src/main.go:51-57); the JSON carries
them as strings of digits, decoded to integers. -/
structure Progress where
  read_rows : Int
  read_bytes : Int
  written_rows : Int
  written_bytes : Int
  total_rows_to_read : Int
deriving DecidableEq

/-- Failure modes of the header-reading loop: `ReadString` failing before
the blank line (src/main.go:214-216), or a progress payload that fails to
decode (src/main.go:225-227) — the latter carries the offending raw payload,
which `runMain` formats into the returned error ("unmarshalling %q: ..."). -/
inductive HeaderError where
  | unexpectedEOF : HeaderError
  | unmarshalling : List Char → HeaderError
deriving DecidableEq

/-- The fixed progress-notification header marker
(`"X-ClickHouse-Progress: "`, src/main.go:222). -/
def progressMark : List Char := "X-ClickHouse-Progress: ".data

/-- Combined `strings.HasPrefix` / `strings.TrimPrefix`: `some` of the
remainder when the first list is a prefix of the second, else `none`. -/
def dropLeading? : List Char → List Char → Option (List Char)
  | [], l => some l
  | _ :: _, [] => none
  | a :: ps, b :: ls => if a = b then dropLeading? ps ls else none

/-- The header loop of `runMain` (src/main.go:212-234): each line is
trimmed; a blank line ends the header block; a line carrying the progress
marker has its payload decoded (`json.Unmarshal`, abstracted as the `parse`
argument), and a decode failure aborts the scan with an error carrying the
raw payload; any other header line is skipped.  Running out of lines before
the blank line is the `ReadString` error case. -/
def readHeaders (parse : List Char → Option Progress) :
    List (List Char) → Except HeaderError Unit
  | [] => Except.error HeaderError.unexpectedEOF
  | ln :: rest =>
    if goTrimSpace ln = [] then Except.ok ()
    else
      match dropLeading? progressMark (goTrimSpace ln) with
      | some data =>
        match parse data with
        | none => Except.error (HeaderError.unmarshalling data)
        | some _ => readHeaders parse rest
      | none => readHeaders parse rest

theorem dropLeading?_append (p l : List Char) : dropLeading? p (p ++ l) = some l := by
  induction p with
  | nil => rfl
  | cons a ps ih => simp [dropLeading?, ih]

theorem readHeaders_skip (parse : List Char → Option Progress)
    (l : List Char) (rest : List (List Char)) (hne : goTrimSpace l ≠ [])
    (hok : ∀ d, dropLeading? progressMark (goTrimSpace l) = some d →
      (parse d).isSome) :
    readHeaders parse (l :: rest) = readHeaders parse rest := by
  simp only [readHeaders]
  rw [if_neg hne]
  cases hd : dropLeading? progressMark (goTrimSpace l) with
  | none => rfl
  | some d =>
    obtain ⟨p, hp⟩ := Option.isSome_iff_exists.mp (hok d hd)
    simp [hp]

/-- C8: a header line carrying the progress marker whose payload fails to
decode makes the scan fail with an error that carries the offending raw
payload; the malformed notification is never skipped (headers before it may
be non-progress lines or well-formed notifications). -/
theorem c8_bad_progress_fatal (parse : List Char → Option Progress)
    (pre : List (List Char)) (ln : List Char) (suf : List (List Char))
    (data : List Char)
    (hpre : ∀ l ∈ pre, goTrimSpace l ≠ [] ∧
      ∀ d, dropLeading? progressMark (goTrimSpace l) = some d → (parse d).isSome)
    (hln : goTrimSpace ln = progressMark ++ data)
    (hfail : parse data = none) :
    readHeaders parse (pre ++ ln :: suf) =
      Except.error (HeaderError.unmarshalling data) := by
  induction pre with
  | nil =>
    show readHeaders parse (ln :: suf) = _
    simp only [readHeaders]
    rw [hln, if_neg (by simp [progressMark])]
    simp only [dropLeading?_append, hfail]
  | cons l pre ih =>
    have hl := hpre l (List.mem_cons_self l pre)
    show readHeaders parse (l :: (pre ++ ln :: suf)) = _
    rw [readHeaders_skip parse l _ hl.1 hl.2]
    exact ih (fun x hx => hpre x (List.mem_cons_of_mem _ hx))

/-- Witness for C8: a stream whose first header line is a progress
notification with an undecodable payload errors out carrying that payload. -/
theorem c8_bad_progress_fatal_witness :
    readHeaders (fun _ => none)
        ([] ++ "X-ClickHouse-Progress: zzz".data :: ["".data]) =
      Except.error (HeaderError.unmarshalling "zzz".data) :=
  c8_bad_progress_fatal (fun _ => none) [] "X-ClickHouse-Progress: zzz".data
    ["".data] "zzz".data (by simp) (by decide) rfl

/-! ## Symmetric context flag (src/main.go, `main` lines 286-289) -/

/-- The `-C` override in `main`: when nonzero it overwrites both `-B` and
`-A` with its own value; the pair returned is (beforeLines, afterLines). -/
def applyContextFlag (contextLines beforeLines afterLines : Nat) : Nat × Nat :=
  if contextLines ≠ 0 then (contextLines, contextLines)
  else (beforeLines, afterLines)

/-- C10: a nonzero `-C` value replaces both the before-count and the
after-count, discarding the separately supplied `-B`/`-A` values; a zero
`-C` leaves them unchanged. -/
theorem c10_context_flag_override (c b a : Nat) :
    (c ≠ 0 → applyContextFlag c b a = (c, c)) ∧
    (c = 0 → applyContextFlag c b a = (b, a)) := by
  constructor
  · intro h
    simp [applyContextFlag, h]
  · intro h
    simp [applyContextFlag, h]

/-- Witness for C10 at concrete flag values. -/
theorem c10_context_flag_override_witness :
    applyContextFlag 3 1 2 = (3, 3) ∧ applyContextFlag 0 1 2 = (1, 2) :=
  ⟨(c10_context_flag_override 3 1 2).1 (by decide),
    (c10_context_flag_override 0 1 2).2 rfl⟩

end Logscli
